import Mathlib

/-
Verification of the termtype typing-session state machine and metrics engine
(`src/termtype.py`, class `TypingTest`, plus the keystroke handling in `main`).

Modelling conventions:
- Python strings are embedded as `List Char`; a Python line `s` is `s`'s
  character list, `len(s)` is `List.length`, and the empty string is `[]`.
- `time.time()` values are rationals supplied by the caller at each
  operation (`now : ℚ`); Python floats are modelled as `ℚ`.
- `round(x, 1)` is modelled as `roundTo1` (round half towards the larger
  value at ties, the tie behaviour being irrelevant to the claims below).
- Methods that mutate `self` become functions `TypingTest → ... → TypingTest`
  (paired with their return value where the source returns one).
-/

namespace Termtype

inductive Category where
  | easy | medium | hard | python | cstyle | practice | custom
deriving DecidableEq

/-- Python `str.split('\n')` on a character list: always returns at least one
(possibly empty) chunk; a trailing separator yields a trailing empty chunk. -/
def split_on_nl : List Char → List (List Char)
  | [] => [[]]
  | c :: cs =>
    if c = '\x0a' then [] :: split_on_nl cs
    else
      match split_on_nl cs with
      | [] => [[c]]
      | l :: ls => (c :: l) :: ls

/-- State of `TypingTest` (src/termtype.py, lines 135-153). -/
structure TypingTest where
  category : Category
  templates : List (List (List Char))
  current_template_index : Nat
  current_line_index : Nat
  current_template : List (List Char)
  user_input : List Char
  start_time : Option ℚ
  end_time : Option ℚ
  correct_chars : Nat
  total_chars : Nat
  wpm_history : List ℚ
  last_update_time : Option ℚ
  total_chars_all_lines : Nat
  completed_chars : Nat
deriving DecidableEq

/-- Constructor `TypingTest.__init__` (lines 136-153): split each template body into
lines; `current_template = templates[0] if templates else []`. -/
def TypingTest.init (category : Category) (templates : List (List Char)) : TypingTest :=
  let tpls := templates.map split_on_nl
  { category := category
    templates := tpls
    current_template_index := 0
    current_line_index := 0
    current_template := tpls.getD 0 []
    user_input := []
    start_time := none
    end_time := none
    correct_chars := 0
    total_chars := 0
    wpm_history := []
    last_update_time := none
    total_chars_all_lines := (tpls.map (fun tp => (tp.map List.length).sum)).sum
    completed_chars := 0 }

/-- Method `get_current_line` (lines 155-159); Python list truthiness is `≠ []`. -/
def TypingTest.get_current_line (t : TypingTest) : List Char :=
  if t.current_template ≠ [] ∧ t.current_line_index < t.current_template.length then
    t.current_template.getD t.current_line_index []
  else []

/-- Method `is_line_complete` (lines 161-164). -/
def TypingTest.is_line_complete (t : TypingTest) : Bool :=
  t.get_current_line.length ≤ t.user_input.length

/-- Method `move_to_next_template` (lines 175-184): returns `true` when all
templates are complete; only then is `current_template` left unchanged. -/
def TypingTest.move_to_next_template (t : TypingTest) : Bool × TypingTest :=
  let t1 := { t with current_template_index := t.current_template_index + 1,
                     current_line_index := 0 }
  if t1.templates.length ≤ t1.current_template_index then (true, t1)
  else (false, { t1 with current_template := t1.templates.getD t1.current_template_index [] })

/-- Method `move_to_next_line` (lines 166-173): advance the line cursor and clear
the input buffer; roll over to the next template when past the last line. -/
def TypingTest.move_to_next_line (t : TypingTest) : Bool × TypingTest :=
  let t1 := { t with current_line_index := t.current_line_index + 1, user_input := [] }
  if t1.current_template.length ≤ t1.current_line_index then t1.move_to_next_template
  else (false, t1)

/-- Python `round(q, 1)`. -/
def roundTo1 (q : ℚ) : ℚ := (round (q * 10) : ℤ) / 10

/-- The loop of `submit_line` lines 258-261: count positions `i` of the
typed input with `i < len(current_line)` and a matching character.  The
`getD` defaults are never reached (`i` ranges below both lengths at every
counted position). -/
def line_correct_count (input line : List Char) : Nat :=
  (List.range input.length).foldl
    (fun acc i =>
      if i < line.length ∧ input.getD i '?' = line.getD i '?' then acc + 1 else acc) 0

/-- Method `submit_line` (lines 245-274): no-op returning `false` on an empty
buffer; otherwise start the clock on first use, accumulate the counters,
advance the cursor, and set `end_time` when the whole test just completed. -/
def TypingTest.submit_line (t : TypingTest) (now : ℚ) : Bool × TypingTest :=
  if t.user_input = [] then (false, t)
  else
    let current_line := t.get_current_line
    let t1 := if t.start_time = none
              then { t with start_time := some now, last_update_time := some now }
              else t
    let line_correct := line_correct_count t1.user_input current_line
    let t2 := { t1 with correct_chars := t1.correct_chars + line_correct,
                        total_chars := t1.total_chars + current_line.length,
                        completed_chars := t1.completed_chars + current_line.length }
    let r := t2.move_to_next_line
    let t3 := if r.1 then { r.2 with end_time := some now } else r.2
    (r.1, t3)

/-- Method `calculate_instant_wpm` (lines 186-207).  The test `if not self.start_time`
is Python truthiness: `None` and `0.0` both fall into the early return.
Returns the value together with the updated state (the method appends a
sample to `wpm_history` at most once per second). -/
def TypingTest.calculate_instant_wpm (t : TypingTest) (now : ℚ) : ℚ × TypingTest :=
  match t.start_time with
  | none => (0, t)
  | some st =>
    if st = 0 then (0, t)
    else
      let elapsed := now - st
      if 0 < elapsed ∧ 0 < t.completed_chars then
        let minutes := elapsed / 60
        let wpm := ((t.completed_chars : ℚ) / 5) / minutes
        let sample : Bool :=
          match t.last_update_time with
          | none => true
          | some lu => 1 ≤ now - lu
        let t1 :=
          if sample then
            let hist := t.wpm_history ++ [wpm]
            let hist := if 10 < hist.length then hist.tail else hist
            { t with wpm_history := hist, last_update_time := some now }
          else t
        (roundTo1 wpm, t1)
      else (0, t)

/-- Method `calculate_average_wpm` (lines 209-213). -/
def TypingTest.calculate_average_wpm (t : TypingTest) : ℚ :=
  if t.wpm_history = [] then 0
  else roundTo1 (t.wpm_history.sum / (t.wpm_history.length : ℚ))

/-- Method `calculate_accuracy` (lines 215-219). -/
def TypingTest.calculate_accuracy (t : TypingTest) : ℚ :=
  if t.total_chars = 0 then 100
  else roundTo1 (((t.correct_chars : ℚ) / (t.total_chars : ℚ)) * 100)

/-- Method `get_progress` (lines 221-228). -/
def TypingTest.get_progress (t : TypingTest) : Nat × Nat × Nat × Nat × Nat × Nat :=
  let total_lines_in_template := if t.current_template ≠ [] then t.current_template.length else 0
  let current_line := if 0 < total_lines_in_template then t.current_line_index + 1 else 0
  (t.current_template_index + 1, t.templates.length,
   current_line, total_lines_in_template,
   t.completed_chars, t.total_chars_all_lines)

/-- Method `check_character` (lines 230-243). -/
def TypingTest.check_character (t : TypingTest) (char_pos : Nat) : Option Bool :=
  let current_line := t.get_current_line
  if current_line = [] then none
  else if current_line.length ≤ char_pos then none
  else if t.user_input.length ≤ char_pos then none
  else some (t.user_input.getD char_pos '?' = current_line.getD char_pos '?')

/-- The printable-key branch of `main` (lines 777-781): append the typed
character when the current line is non-empty and the buffer is below its
length. -/
def TypingTest.append_char (t : TypingTest) (c : Char) : TypingTest :=
  let current_line := t.get_current_line
  if current_line ≠ [] ∧ t.user_input.length < current_line.length then
    { t with user_input := t.user_input ++ [c] }
  else t

/-- The backspace branch of `main` (lines 756-759): drop the last typed
character if any. -/
def TypingTest.backspace (t : TypingTest) : TypingTest :=
  if t.user_input ≠ [] then { t with user_input := t.user_input.dropLast } else t

/-- The state after the timer/counter updates of `submit_line`, before the
cursor moves (covers lines 252-265 of the source). -/
def after_counters (t : TypingTest) (now : ℚ) : TypingTest :=
  { t with
    start_time := if t.start_time = none then some now else t.start_time,
    last_update_time := if t.start_time = none then some now else t.last_update_time,
    correct_chars := t.correct_chars + line_correct_count t.user_input t.get_current_line,
    total_chars := t.total_chars + t.get_current_line.length,
    completed_chars := t.completed_chars + t.get_current_line.length }

/-- Repeated `append_char` over a list of characters: typing a line. -/
def type_chars (t : TypingTest) (cs : List Char) : TypingTest :=
  cs.foldl TypingTest.append_char t

/-- The trace of submitting a list of lines in order: each line is typed
with `append_char` and then submitted at time `now`; each entry records the
boolean returned by `submit_line` and the `end_time` just after that call. -/
def submit_trace (t : TypingTest) (lines : List (List Char)) (now : ℚ) :
    List (Bool × Option ℚ) :=
  match lines with
  | [] => []
  | cs :: rest =>
    let r := (type_chars t cs).submit_line now
    (r.1, r.2.end_time) :: submit_trace r.2 rest now

/-- The lines left to type from cursor position `(ti, li)` on. -/
def remaining_lines (tpls : List (List (List Char))) (ti li : Nat) : List (List Char) :=
  match tpls.drop ti with
  | [] => []
  | tp :: rest => tp.drop li ++ rest.flatten

/-- One state-mutating interaction with the session. -/
inductive Step : TypingTest → TypingTest → Prop where
  | append (t : TypingTest) (c : Char) : Step t (t.append_char c)
  | backspace (t : TypingTest) : Step t t.backspace
  | submit (t : TypingTest) (now : ℚ) : Step t (t.submit_line now).2
  | wpm_query (t : TypingTest) (now : ℚ) : Step t (t.calculate_instant_wpm now).2

/-- States reachable from some freshly constructed session. -/
inductive Reachable : TypingTest → Prop where
  | init (c : Category) (templates : List (List Char)) : Reachable (TypingTest.init c templates)
  | step {t t' : TypingTest} : Reachable t → Step t t' → Reachable t'

/-- The session invariant: accumulated correct characters never exceed the
accumulated total, the input buffer never outgrows the current line, and the
cached `current_template` agrees with the cursor while it is in range. -/
def Inv (t : TypingTest) : Prop :=
  t.correct_chars ≤ t.total_chars ∧
  t.user_input.length ≤ t.get_current_line.length ∧
  (t.current_template_index < t.templates.length →
    t.current_template = t.templates.getD t.current_template_index [])

/-! ### Basic accounting lemmas -/

lemma foldl_count_eq {α : Type} (p : α → Prop) [DecidablePred p] (l : List α) (acc : Nat) :
    l.foldl (fun a i => if p i then a + 1 else a) acc
      = acc + (l.filter (fun i => decide (p i))).length := by
  induction l generalizing acc with
  | nil => simp
  | cons x xs ih =>
    by_cases hx : p x
    · simp [List.filter_cons, hx, ih]; omega
    · simp [List.filter_cons, hx, ih]

lemma line_correct_count_eq (input line : List Char) :
    line_correct_count input line
      = ((List.range input.length).filter
          (fun i => decide (i < line.length ∧ input.getD i '?' = line.getD i '?'))).length := by
  unfold line_correct_count
  simpa using foldl_count_eq
    (fun i => i < line.length ∧ input.getD i '?' = line.getD i '?')
    (List.range input.length) 0

lemma length_filter_range_le {m : Nat} (p : Nat → Prop) [DecidablePred p]
    (hp : ∀ i, p i → i < m) (n : Nat) :
    ((List.range n).filter (fun i => decide (p i))).length ≤ m := by
  have hnd : ((List.range n).filter (fun i => decide (p i))).Nodup :=
    List.Nodup.filter _ (List.nodup_range n)
  have hsub : ((List.range n).filter (fun i => decide (p i))) ⊆ List.range m := by
    intro i hi
    have := List.of_mem_filter hi
    exact List.mem_range.mpr (hp i (by simpa using this))
  have := (hnd.subperm hsub).length_le
  simpa using this

lemma line_correct_count_le (input line : List Char) :
    line_correct_count input line ≤ line.length := by
  rw [line_correct_count_eq]
  exact length_filter_range_le _ (fun i hi => hi.1) _

lemma line_correct_count_le_input (input line : List Char) :
    line_correct_count input line ≤ input.length := by
  rw [line_correct_count_eq]
  calc ((List.range input.length).filter _).length
      ≤ (List.range input.length).length := List.length_filter_le _ _
    _ = input.length := List.length_range _

/-! ### Unfolding lemmas for the state-machine operations -/

lemma append_char_of_pos {t : TypingTest} {c : Char}
    (h : t.get_current_line ≠ [] ∧ t.user_input.length < t.get_current_line.length) :
    t.append_char c = { t with user_input := t.user_input ++ [c] } := by
  rw [TypingTest.append_char]
  exact if_pos h

lemma append_char_of_neg {t : TypingTest} {c : Char}
    (h : ¬(t.get_current_line ≠ [] ∧ t.user_input.length < t.get_current_line.length)) :
    t.append_char c = t := by
  rw [TypingTest.append_char]
  exact if_neg h

lemma submit_line_nil {t : TypingTest} {now : ℚ} (h : t.user_input = []) :
    t.submit_line now = (false, t) := by
  rw [TypingTest.submit_line, if_pos h]

lemma submit_line_case_line {t : TypingTest} {now : ℚ} (h : t.user_input ≠ [])
    (hlt : t.current_line_index + 1 < t.current_template.length) :
    t.submit_line now =
      (false, { after_counters t now with
                current_line_index := t.current_line_index + 1,
                user_input := [] }) := by
  rw [TypingTest.submit_line, if_neg (by simpa using h)]
  by_cases hst : t.start_time = none <;>
    simp [TypingTest.move_to_next_line, TypingTest.move_to_next_template,
          after_counters, hst, Nat.not_le.mpr hlt, TypingTest.get_current_line]

lemma submit_line_case_template {t : TypingTest} {now : ℚ} (h : t.user_input ≠ [])
    (hge : t.current_template.length ≤ t.current_line_index + 1)
    (hlt : t.current_template_index + 1 < t.templates.length) :
    t.submit_line now =
      (false, { after_counters t now with
                current_template_index := t.current_template_index + 1,
                current_line_index := 0,
                current_template := t.templates.getD (t.current_template_index + 1) [],
                user_input := [] }) := by
  rw [TypingTest.submit_line, if_neg (by simpa using h)]
  by_cases hst : t.start_time = none <;>
    simp [TypingTest.move_to_next_line, TypingTest.move_to_next_template,
          after_counters, hst, hge, Nat.not_le.mpr hlt, TypingTest.get_current_line]

lemma submit_line_case_done {t : TypingTest} {now : ℚ} (h : t.user_input ≠ [])
    (hge : t.current_template.length ≤ t.current_line_index + 1)
    (hge2 : t.templates.length ≤ t.current_template_index + 1) :
    t.submit_line now =
      (true, { after_counters t now with
               current_template_index := t.current_template_index + 1,
               current_line_index := 0,
               user_input := [],
               end_time := some now }) := by
  rw [TypingTest.submit_line, if_neg (by simpa using h)]
  by_cases hst : t.start_time = none <;>
    simp [TypingTest.move_to_next_line, TypingTest.move_to_next_template,
          after_counters, hst, hge, hge2, TypingTest.get_current_line]

/-- Method `calculate_instant_wpm` only ever touches `wpm_history` and
`last_update_time`. -/
lemma calculate_instant_wpm_snd (t : TypingTest) (now : ℚ) :
    ∃ hist lu, (t.calculate_instant_wpm now).2
      = { t with wpm_history := hist, last_update_time := lu } := by
  obtain ⟨cat, tpls, ti, li, ct, ui, st, et, cc, tc, wh, lut, tca, comp⟩ := t
  unfold TypingTest.calculate_instant_wpm
  cases st with
  | none => exact ⟨wh, lut, rfl⟩
  | some s =>
    dsimp only
    split_ifs <;> exact ⟨_, _, rfl⟩

lemma inv_init (c : Category) (templates : List (List Char)) :
    Inv (TypingTest.init c templates) := by
  refine ⟨le_refl _, ?_, ?_⟩
  · simp [TypingTest.init, TypingTest.get_current_line]
  · intro _; rfl

lemma inv_step {t t' : TypingTest} (h : Inv t) (s : Step t t') : Inv t' := by
  obtain ⟨h1, h2, h3⟩ := h
  cases s with
  | append c =>
    by_cases hc : t.get_current_line ≠ [] ∧ t.user_input.length < t.get_current_line.length
    · rw [append_char_of_pos hc]
      refine ⟨h1, ?_, h3⟩
      have : ({ t with user_input := t.user_input ++ [c] } : TypingTest).get_current_line
          = t.get_current_line := rfl
      rw [this]
      simpa using hc.2
    · rw [append_char_of_neg hc]; exact ⟨h1, h2, h3⟩
  | backspace =>
    rw [TypingTest.backspace]
    split
    · refine ⟨h1, ?_, h3⟩
      have : ({ t with user_input := t.user_input.dropLast } : TypingTest).get_current_line
          = t.get_current_line := rfl
      rw [this]
      calc t.user_input.dropLast.length ≤ t.user_input.length := by
              simp [List.length_dropLast]
        _ ≤ _ := h2
    · exact ⟨h1, h2, h3⟩
  | submit now =>
    by_cases hu : t.user_input = []
    · rw [submit_line_nil hu]; exact ⟨h1, h2, h3⟩
    · have hlc := line_correct_count_le t.user_input t.get_current_line
      rcases le_or_lt t.current_template.length (t.current_line_index + 1) with hge | hlt
      · rcases le_or_lt t.templates.length (t.current_template_index + 1) with hge2 | hlt2
        · rw [submit_line_case_done hu hge hge2]
          refine ⟨by simp [after_counters]; omega, by simp, ?_⟩
          intro hcon
          simp [after_counters] at hcon
          omega
        · rw [submit_line_case_template hu hge hlt2]
          refine ⟨by simp [after_counters]; omega, by simp, ?_⟩
          intro _; rfl
      · rw [submit_line_case_line hu hlt]
        refine ⟨by simp [after_counters]; omega, by simp, ?_⟩
        intro hcon
        exact h3 (by simpa using hcon)
  | wpm_query now =>
    obtain ⟨hist, lu, heq⟩ := calculate_instant_wpm_snd t now
    rw [heq]
    exact ⟨h1, h2, h3⟩

lemma reachable_inv {t : TypingTest} (h : Reachable t) : Inv t := by
  induction h with
  | init c templates => exact inv_init c templates
  | step _ s ih => exact inv_step ih s

/-! ### Rounding lemmas -/

lemma roundTo1_mono {a b : ℚ} (h : a ≤ b) : roundTo1 a ≤ roundTo1 b := by
  unfold roundTo1
  have hr : round (a * 10) ≤ round (b * 10) := by
    rw [round_eq, round_eq]
    exact Int.floor_mono (by linarith)
  have : ((round (a * 10) : ℤ) : ℚ) ≤ ((round (b * 10) : ℤ) : ℚ) := by exact_mod_cast hr
  linarith

lemma roundTo1_zero : roundTo1 0 = 0 := by
  unfold roundTo1
  rw [show ((0:ℚ) * 10) = 0 by ring, round_zero]
  norm_num

lemma roundTo1_hundred : roundTo1 100 = 100 := by
  unfold roundTo1
  rw [round_eq]
  norm_num

lemma roundTo1_close (q : ℚ) : |roundTo1 q - q| ≤ 1 / 20 := by
  unfold roundTo1
  have h := abs_sub_round (q * 10)
  rw [abs_sub_comm] at h
  have h10 : (0:ℚ) < 10 := by norm_num
  calc |(round (q * 10) : ℚ) / 10 - q|
      = |((round (q * 10) : ℚ) - q * 10) / 10| := by ring_nf
    _ = |(round (q * 10) : ℚ) - q * 10| / 10 := by
        rw [abs_div]; norm_num
    _ ≤ (1 / 2) / 10 := by
        apply div_le_div_of_nonneg_right h ?_ |>.trans_eq rfl
        norm_num
    _ = 1 / 20 := by norm_num

/-! ### Lemmas for the in-order full run (claim C2) -/

lemma split_on_nl_ne_nil (s : List Char) : split_on_nl s ≠ [] := by
  induction s with
  | nil => simp [split_on_nl]
  | cons c cs ih =>
    simp only [split_on_nl]
    split
    · simp
    · split
      · simp
      · simp

lemma append_char_end_time (t : TypingTest) (c : Char) :
    (t.append_char c).end_time = t.end_time := by
  by_cases h : t.get_current_line ≠ [] ∧ t.user_input.length < t.get_current_line.length
  · rw [append_char_of_pos h]
  · rw [append_char_of_neg h]

lemma backspace_end_time (t : TypingTest) :
    t.backspace.end_time = t.end_time := by
  rw [TypingTest.backspace]
  split <;> rfl

lemma calculate_instant_wpm_end_time (t : TypingTest) (now : ℚ) :
    ((t.calculate_instant_wpm now).2).end_time = t.end_time := by
  obtain ⟨hist, lu, heq⟩ := calculate_instant_wpm_snd t now
  rw [heq]

lemma type_chars_eq (cs : List Char) : ∀ (t : TypingTest),
    t.user_input.length + cs.length ≤ t.get_current_line.length →
    type_chars t cs = { t with user_input := t.user_input ++ cs } := by
  induction cs with
  | nil =>
    intro t _
    simp [type_chars]
  | cons c cs ih =>
    intro t h
    simp only [List.length_cons] at h
    have hgl : t.get_current_line ≠ [] := by
      intro hcon
      rw [hcon] at h
      simp only [List.length_nil] at h
      omega
    have hlt : t.user_input.length < t.get_current_line.length := by omega
    have step : type_chars t (c :: cs) = type_chars (t.append_char c) cs := rfl
    rw [step, append_char_of_pos ⟨hgl, hlt⟩, ih _ ?_]
    · simp
    · have hsame : ({ t with user_input := t.user_input ++ [c] } : TypingTest).get_current_line
          = t.get_current_line := rfl
      rw [hsame]
      simp only [List.length_append, List.length_singleton]
      omega

lemma submit_trace_cons (t : TypingTest) (cs : List Char) (rest : List (List Char)) (now : ℚ) :
    submit_trace t (cs :: rest) now
      = (((type_chars t cs).submit_line now).1,
         ((type_chars t cs).submit_line now).2.end_time)
        :: submit_trace ((type_chars t cs).submit_line now).2 rest now := rfl

lemma remaining_lines_eq {tpls : List (List (List Char))} {ti : Nat} (li : Nat)
    (hti : ti < tpls.length) :
    remaining_lines tpls ti li
      = (tpls.getD ti []).drop li ++ (tpls.drop (ti + 1)).flatten := by
  unfold remaining_lines
  rw [List.getD_eq_getElem _ _ hti, List.drop_eq_getElem_cons hti]

lemma remaining_lines_stop {tpls : List (List (List Char))} {ti : Nat} (li : Nat)
    (hti : tpls.length ≤ ti) :
    remaining_lines tpls ti li = [] := by
  unfold remaining_lines
  rw [List.drop_eq_nil_of_le hti]

lemma remaining_lines_zero (tpls : List (List (List Char))) (ti : Nat) :
    remaining_lines tpls (ti + 1) 0 = (tpls.drop (ti + 1)).flatten := by
  rcases lt_or_le (ti + 1) tpls.length with h | h
  · rw [remaining_lines_eq 0 h, List.drop_zero, List.drop_eq_getElem_cons h,
        List.flatten_cons, List.getD_eq_getElem _ _ h]
  · rw [remaining_lines_stop 0 h, List.drop_eq_nil_of_le h]
    rfl

/-- Submitting, in order, every remaining line of every remaining template
(typing each line in full first) produces `false` with `end_time` still
unset on every submission but the last, and `true` with `end_time := now` on
the last. -/
lemma submit_all_trace (n : Nat) : ∀ (t : TypingTest) (now : ℚ),
    (remaining_lines t.templates t.current_template_index t.current_line_index).length = n →
    t.user_input = [] →
    t.end_time = none →
    t.current_template = t.templates.getD t.current_template_index [] →
    t.current_template_index < t.templates.length →
    t.current_line_index < t.current_template.length →
    (∀ tp ∈ t.templates, tp ≠ []) →
    (∀ tp ∈ t.templates, ∀ l ∈ tp, l ≠ []) →
    submit_trace t
        (remaining_lines t.templates t.current_template_index t.current_line_index) now
      = List.replicate (n - 1) (false, none) ++ [(true, some now)] := by
  induction n with
  | zero =>
    intro t now hlen hui het hct hti hli htp hnl
    have hli2 : t.current_line_index < (t.templates.getD t.current_template_index []).length := by
      rw [← hct]; exact hli
    rw [remaining_lines_eq _ hti] at hlen
    simp only [List.length_append, List.length_drop] at hlen
    omega
  | succ k ih =>
    intro t now hlen hui het hct hti hli htp hnl
    have hli2 : t.current_line_index
        < (t.templates.getD t.current_template_index []).length := by
      rw [← hct]; exact hli
    have htpmem : t.templates.getD t.current_template_index [] ∈ t.templates := by
      rw [List.getD_eq_getElem _ _ hti]; exact List.getElem_mem hti
    have hLmem : (t.templates.getD t.current_template_index []).getD t.current_line_index []
        ∈ t.templates.getD t.current_template_index [] := by
      rw [List.getD_eq_getElem _ _ hli2]; exact List.getElem_mem hli2
    have hLne : (t.templates.getD t.current_template_index []).getD
        t.current_line_index [] ≠ [] := hnl _ htpmem _ hLmem
    have hdec : remaining_lines t.templates t.current_template_index t.current_line_index
        = (t.templates.getD t.current_template_index []).getD t.current_line_index []
          :: ((t.templates.getD t.current_template_index []).drop (t.current_line_index + 1)
              ++ (t.templates.drop (t.current_template_index + 1)).flatten) := by
      rw [remaining_lines_eq _ hti, List.drop_eq_getElem_cons hli2,
          List.getD_eq_getElem _ _ hli2]
      rfl
    have hgl : t.get_current_line
        = (t.templates.getD t.current_template_index []).getD t.current_line_index [] := by
      rw [TypingTest.get_current_line,
          if_pos ⟨List.length_pos.mp (Nat.lt_of_le_of_lt (Nat.zero_le _) hli), hli⟩, hct]
    have hty : type_chars t ((t.templates.getD t.current_template_index []).getD
        t.current_line_index [])
        = { t with user_input := ((t.templates.getD t.current_template_index []).getD t.current_line_index []) } := by
      have happ := type_chars_eq ((t.templates.getD t.current_template_index []).getD
          t.current_line_index []) t (by rw [hui, hgl]; simp)
      rw [hui] at happ
      simpa using happ
    have hklen : ((t.templates.getD t.current_template_index []).drop
            (t.current_line_index + 1)
          ++ (t.templates.drop (t.current_template_index + 1)).flatten).length = k := by
      rw [hdec] at hlen
      simpa using hlen
    rw [Nat.add_sub_cancel]
    rcases lt_or_le (t.current_line_index + 1) t.current_template.length with hcase | hcase
    · -- more lines in the current template: submission is not final
      have hcase2 : t.current_line_index + 1
          < (t.templates.getD t.current_template_index []).length := by
        rw [← hct]; exact hcase
      have hkpos : 0 < k := by
        rw [← hklen]
        simp only [List.length_append, List.length_drop]
        omega
      have hsub := @submit_line_case_line ({ t with user_input := ((t.templates.getD t.current_template_index []).getD t.current_line_index []) } : TypingTest) now hLne hcase
      rw [hdec, submit_trace_cons, hty, hsub]
      simp only [after_counters]
      rw [het]
      have htail : ((t.templates.getD t.current_template_index []).drop
              (t.current_line_index + 1)
            ++ (t.templates.drop (t.current_template_index + 1)).flatten)
          = remaining_lines t.templates t.current_template_index
              (t.current_line_index + 1) :=
        (remaining_lines_eq _ hti).symm
      rw [htail, show k = (k - 1) + 1 from by omega, List.replicate_succ,
          List.cons_append]
      congr 1
      exact ih _ now (by rw [← htail]; simpa using hklen) rfl rfl hct hti hcase htp hnl
    · have hdrop : (t.templates.getD t.current_template_index []).drop
          (t.current_line_index + 1) = [] :=
        List.drop_eq_nil_of_le (by rw [← hct]; exact hcase)
      rcases lt_or_le (t.current_template_index + 1) t.templates.length with hcase3 | hcase3
      · -- advance to the next template: submission is not final
        have hnext : t.templates.getD (t.current_template_index + 1) [] ∈ t.templates := by
          rw [List.getD_eq_getElem _ _ hcase3]; exact List.getElem_mem hcase3
        have hnextpos : 0 < (t.templates.getD (t.current_template_index + 1) []).length :=
          List.length_pos.mpr (htp _ hnext)
        have hkpos : 0 < k := by
          rw [← hklen, hdrop]
          simp only [List.nil_append]
          rw [← remaining_lines_zero, remaining_lines_eq 0 hcase3]
          simp only [List.drop_zero, List.length_append]
          omega
        have hsub := @submit_line_case_template ({ t with user_input := ((t.templates.getD t.current_template_index []).getD t.current_line_index []) } : TypingTest) now hLne (by exact hcase) (by exact hcase3)
        rw [hdec, submit_trace_cons, hty, hsub]
        simp only [after_counters]
        rw [het]
        rw [hdrop, List.nil_append, ← remaining_lines_zero,
            show k = (k - 1) + 1 from by omega, List.replicate_succ, List.cons_append]
        congr 1
        refine ih _ now ?_ rfl rfl rfl hcase3 (by simpa using hnextpos) htp hnl
        have hrem : (remaining_lines t.templates (t.current_template_index + 1) 0).length
            = k := by
          rw [remaining_lines_zero]
          rw [hdrop, List.nil_append] at hklen
          exact hklen
        simpa using hrem
      · -- last line of the last template: the completing submission
        have hflat : (t.templates.drop (t.current_template_index + 1)).flatten = [] := by
          rw [List.drop_eq_nil_of_le hcase3]
          rfl
        have hk0 : k = 0 := by
          rw [hdrop, hflat] at hklen
          simpa using hklen.symm
        have hsub := @submit_line_case_done ({ t with user_input := ((t.templates.getD t.current_template_index []).getD t.current_line_index []) } : TypingTest) now hLne (by exact hcase) (by exact hcase3)
        rw [hdec, submit_trace_cons, hty, hsub]
        dsimp only
        rw [hdrop, hflat, hk0]
        rfl

/-- The value returned by `calculate_instant_wpm`, by cases. -/
lemma calculate_instant_wpm_val (t : TypingTest) (now : ℚ) :
    (t.calculate_instant_wpm now).1 =
      match t.start_time with
      | none => 0
      | some st =>
        if st = 0 then 0
        else if 0 < now - st ∧ 0 < t.completed_chars
        then roundTo1 (((t.completed_chars : ℚ) / 5) / ((now - st) / 60))
        else 0 := by
  obtain ⟨cat, tpls, ti, li, ct, ui, st, et, cc, tc, wh, lut, tca, comp⟩ := t
  unfold TypingTest.calculate_instant_wpm
  cases st with
  | none => rfl
  | some s =>
    dsimp only
    split_ifs <;> rfl

/-- Mean of a non-empty list bounded above by a bound on its elements. -/
lemma list_mean_le {l : List ℚ} {M : ℚ} (hne : l ≠ [])
    (hM : ∀ x ∈ l, x ≤ M) : l.sum / (l.length : ℚ) ≤ M := by
  have hlen : 0 < (l.length : ℚ) := by
    have := List.length_pos.mpr hne
    exact_mod_cast this
  rw [div_le_iff₀ hlen]
  have := List.sum_le_card_nsmul l M hM
  rw [nsmul_eq_mul] at this
  linarith

/-- Mean of a non-empty list bounded below by a bound on its elements. -/
lemma le_list_mean {l : List ℚ} {m : ℚ} (hne : l ≠ [])
    (hm : ∀ x ∈ l, m ≤ x) : m ≤ l.sum / (l.length : ℚ) := by
  have hlen : 0 < (l.length : ℚ) := by
    have := List.length_pos.mpr hne
    exact_mod_cast this
  rw [le_div_iff₀ hlen]
  have := List.card_nsmul_le_sum l m hm
  rw [nsmul_eq_mul] at this
  linarith

/-! ### Claim theorems -/

/-- C4: calling `submit_line` with an empty `user_input` returns `false` and
leaves every component of the session state unchanged. -/
theorem C4_submit_empty_noop (t : TypingTest) (now : ℚ) (h : t.user_input = []) :
    (t.submit_line now).1 = false ∧
    (t.submit_line now).2.correct_chars = t.correct_chars ∧
    (t.submit_line now).2.total_chars = t.total_chars ∧
    (t.submit_line now).2.completed_chars = t.completed_chars ∧
    (t.submit_line now).2.current_template_index = t.current_template_index ∧
    (t.submit_line now).2.current_line_index = t.current_line_index ∧
    (t.submit_line now).2.user_input = t.user_input ∧
    (t.submit_line now).2.start_time = t.start_time ∧
    (t.submit_line now).2.end_time = t.end_time ∧
    (t.submit_line now).2.wpm_history = t.wpm_history := by
  rw [submit_line_nil h]
  exact ⟨rfl, rfl, rfl, rfl, rfl, rfl, rfl, rfl, rfl, rfl⟩

/-- Witness for C4 at a concrete session. -/
theorem C4_submit_empty_noop_witness :
    ((TypingTest.init Category.easy [['a', 'b']]).submit_line 5).1 = false ∧
    ((TypingTest.init Category.easy [['a', 'b']]).submit_line 5).2.correct_chars
      = (TypingTest.init Category.easy [['a', 'b']]).correct_chars ∧
    ((TypingTest.init Category.easy [['a', 'b']]).submit_line 5).2.total_chars
      = (TypingTest.init Category.easy [['a', 'b']]).total_chars ∧
    ((TypingTest.init Category.easy [['a', 'b']]).submit_line 5).2.completed_chars
      = (TypingTest.init Category.easy [['a', 'b']]).completed_chars ∧
    ((TypingTest.init Category.easy [['a', 'b']]).submit_line 5).2.current_template_index
      = (TypingTest.init Category.easy [['a', 'b']]).current_template_index ∧
    ((TypingTest.init Category.easy [['a', 'b']]).submit_line 5).2.current_line_index
      = (TypingTest.init Category.easy [['a', 'b']]).current_line_index ∧
    ((TypingTest.init Category.easy [['a', 'b']]).submit_line 5).2.user_input
      = (TypingTest.init Category.easy [['a', 'b']]).user_input ∧
    ((TypingTest.init Category.easy [['a', 'b']]).submit_line 5).2.start_time
      = (TypingTest.init Category.easy [['a', 'b']]).start_time ∧
    ((TypingTest.init Category.easy [['a', 'b']]).submit_line 5).2.end_time
      = (TypingTest.init Category.easy [['a', 'b']]).end_time ∧
    ((TypingTest.init Category.easy [['a', 'b']]).submit_line 5).2.wpm_history
      = (TypingTest.init Category.easy [['a', 'b']]).wpm_history :=
  C4_submit_empty_noop (TypingTest.init Category.easy [['a', 'b']]) 5 rfl

/-- C9 counterexample: a session constructed from an empty template list
holds no template at all (`templates = []`), not a single empty one. -/
theorem C9_counterexample :
    (TypingTest.init Category.easy []).templates = [] ∧
    (TypingTest.init Category.easy []).templates.length ≠ 1 := by
  exact ⟨rfl, by decide⟩

/-- C9 (amended): a session constructed from an empty template list holds no
templates; there is no line to type, progress reports a zero line/character
count, and accuracy defaults to 100. -/
theorem C9_empty_construction (c : Category) :
    (TypingTest.init c []).templates = [] ∧
    (TypingTest.init c []).current_template = [] ∧
    (TypingTest.init c []).get_current_line = [] ∧
    (TypingTest.init c []).get_progress = (1, 0, 0, 0, 0, 0) ∧
    (TypingTest.init c []).calculate_accuracy = 100 :=
  ⟨rfl, rfl, rfl, rfl, rfl⟩

/-- C8: in every reachable session state the input buffer length is
non-negative and never exceeds the length of the current line. -/
theorem C8_buffer_bounded (t : TypingTest) (h : Reachable t) :
    0 ≤ t.user_input.length ∧ t.user_input.length ≤ t.get_current_line.length :=
  ⟨Nat.zero_le _, (reachable_inv h).2.1⟩

/-- C5: in every reachable state, accuracy is 100 when no characters were
submitted, is `round(correct / total * 100, 1)` otherwise, and always lies
in the interval `[0, 100]`. -/
theorem C5_accuracy_bounds (t : TypingTest) (h : Reachable t) :
    (t.total_chars = 0 → t.calculate_accuracy = 100) ∧
    (t.total_chars ≠ 0 →
      t.calculate_accuracy
        = roundTo1 ((t.correct_chars : ℚ) / (t.total_chars : ℚ) * 100)) ∧
    0 ≤ t.calculate_accuracy ∧ t.calculate_accuracy ≤ 100 := by
  have hct : t.correct_chars ≤ t.total_chars := (reachable_inv h).1
  have hval : 0 ≤ t.calculate_accuracy ∧ t.calculate_accuracy ≤ 100 := by
    rw [TypingTest.calculate_accuracy]
    by_cases h0 : t.total_chars = 0
    · rw [if_pos h0]; norm_num
    · rw [if_neg h0]
      have htpos : (0:ℚ) < (t.total_chars : ℚ) := by
        exact_mod_cast Nat.pos_of_ne_zero h0
      have hq0 : (0:ℚ) ≤ (t.correct_chars : ℚ) / (t.total_chars : ℚ) * 100 := by
        positivity
      have hq1 : (t.correct_chars : ℚ) / (t.total_chars : ℚ) * 100 ≤ 100 := by
        have hcast : (t.correct_chars : ℚ) ≤ (t.total_chars : ℚ) := by exact_mod_cast hct
        have hdiv : (t.correct_chars : ℚ) / (t.total_chars : ℚ) ≤ 1 :=
          (div_le_one htpos).mpr hcast
        nlinarith
      constructor
      · calc (0:ℚ) = roundTo1 0 := roundTo1_zero.symm
          _ ≤ _ := roundTo1_mono hq0
      · calc roundTo1 _ ≤ roundTo1 100 := roundTo1_mono hq1
          _ = 100 := roundTo1_hundred
  exact ⟨fun h0 => by rw [TypingTest.calculate_accuracy, if_pos h0],
         fun h0 => by rw [TypingTest.calculate_accuracy, if_neg h0],
         hval.1, hval.2⟩

/-- Witness for C5 at a concrete reachable state. -/
theorem C5_accuracy_bounds_witness :
    ((TypingTest.init Category.easy [['a']]).total_chars = 0 →
      (TypingTest.init Category.easy [['a']]).calculate_accuracy = 100) ∧
    ((TypingTest.init Category.easy [['a']]).total_chars ≠ 0 →
      (TypingTest.init Category.easy [['a']]).calculate_accuracy
        = roundTo1 (((TypingTest.init Category.easy [['a']]).correct_chars : ℚ)
            / ((TypingTest.init Category.easy [['a']]).total_chars : ℚ) * 100)) ∧
    0 ≤ (TypingTest.init Category.easy [['a']]).calculate_accuracy ∧
    (TypingTest.init Category.easy [['a']]).calculate_accuracy ≤ 100 :=
  C5_accuracy_bounds _ (Reachable.init Category.easy [['a']])

/-- C1: a `submit_line` call on a non-empty buffer increases `correct_chars`
by the number of positions, below both lengths, where the typed character
matches the current line, and increases `total_chars` and `completed_chars`
by the current line's length.  In particular for line `cat` and input `cbt`
the counters increase by 2 and 3 and accuracy after this single line is
66.7. -/
theorem C1_submit_line_counts :
    (∀ (t : TypingTest) (now : ℚ), t.user_input ≠ [] →
      (t.submit_line now).2.correct_chars
        = t.correct_chars
          + ((List.range t.user_input.length).filter
              (fun i => decide (i < t.get_current_line.length
                  ∧ t.user_input.getD i '?' = t.get_current_line.getD i '?'))).length ∧
      (t.submit_line now).2.total_chars = t.total_chars + t.get_current_line.length ∧
      (t.submit_line now).2.completed_chars
        = t.completed_chars + t.get_current_line.length) ∧
    ((type_chars (TypingTest.init Category.easy [['c','a','t']])
        ['c','b','t']).submit_line 1).2.correct_chars = 2 ∧
    ((type_chars (TypingTest.init Category.easy [['c','a','t']])
        ['c','b','t']).submit_line 1).2.total_chars = 3 ∧
    ((type_chars (TypingTest.init Category.easy [['c','a','t']])
        ['c','b','t']).submit_line 1).2.calculate_accuracy = 66.7 := by
  have key : ∀ (t : TypingTest) (now : ℚ), t.user_input ≠ [] →
      (t.submit_line now).2.correct_chars
        = t.correct_chars + line_correct_count t.user_input t.get_current_line ∧
      (t.submit_line now).2.total_chars = t.total_chars + t.get_current_line.length ∧
      (t.submit_line now).2.completed_chars
        = t.completed_chars + t.get_current_line.length := by
    intro t now hu
    rcases le_or_lt t.current_template.length (t.current_line_index + 1) with hge | hlt1
    · rcases le_or_lt t.templates.length (t.current_template_index + 1) with hge2 | hlt2
      · rw [submit_line_case_done hu hge hge2]; exact ⟨rfl, rfl, rfl⟩
      · rw [submit_line_case_template hu hge hlt2]; exact ⟨rfl, rfl, rfl⟩
    · rw [submit_line_case_line hu hlt1]; exact ⟨rfl, rfl, rfl⟩
  refine ⟨fun t now hu => ?_, ?_, ?_, ?_⟩
  · have := key t now hu
    rwa [line_correct_count_eq] at this
  · decide
  · decide
  · have hc : ((type_chars (TypingTest.init Category.easy [['c','a','t']])
        ['c','b','t']).submit_line 1).2.correct_chars = 2 := by decide
    have ht : ((type_chars (TypingTest.init Category.easy [['c','a','t']])
        ['c','b','t']).submit_line 1).2.total_chars = 3 := by decide
    rw [TypingTest.calculate_accuracy, hc, ht]
    norm_num [roundTo1, round_eq]

/-- Witness for the universal part of C1 at a concrete session. -/
theorem C1_submit_line_counts_witness :
    (((TypingTest.init Category.easy [['a','b']]).append_char 'a').submit_line 2).2.correct_chars
      = ((TypingTest.init Category.easy [['a','b']]).append_char 'a').correct_chars
        + ((List.range ((TypingTest.init Category.easy [['a','b']]).append_char
              'a').user_input.length).filter
            (fun i => decide (i < ((TypingTest.init Category.easy [['a','b']]).append_char
                  'a').get_current_line.length
                ∧ ((TypingTest.init Category.easy [['a','b']]).append_char
                    'a').user_input.getD i '?'
                  = ((TypingTest.init Category.easy [['a','b']]).append_char
                      'a').get_current_line.getD i '?'))).length ∧
    (((TypingTest.init Category.easy [['a','b']]).append_char 'a').submit_line 2).2.total_chars
      = ((TypingTest.init Category.easy [['a','b']]).append_char 'a').total_chars
        + ((TypingTest.init Category.easy [['a','b']]).append_char 'a').get_current_line.length ∧
    (((TypingTest.init Category.easy [['a','b']]).append_char
        'a').submit_line 2).2.completed_chars
      = ((TypingTest.init Category.easy [['a','b']]).append_char 'a').completed_chars
        + ((TypingTest.init Category.easy [['a','b']]).append_char 'a').get_current_line.length :=
  C1_submit_line_counts.1 ((TypingTest.init Category.easy [['a','b']]).append_char 'a') 2
    (by decide)

/-- C10: the completing `submit_line` call (made from a reachable state whose
template cursor is still in range) leaves `current_template_index` equal to
the template count with `current_template` still the last template and
`current_line_index` reset to 0, so `get_progress` reports a current
template number of `totalTemplates + 1`, strictly above its second
component. -/
theorem C10_final_submit_cursor (t : TypingTest) (now : ℚ) (hr : Reachable t)
    (hlt : t.current_template_index < t.templates.length)
    (hc : (t.submit_line now).1 = true) :
    (t.submit_line now).2.current_template_index = t.templates.length ∧
    (t.submit_line now).2.current_template
      = t.templates.getD (t.templates.length - 1) [] ∧
    (t.submit_line now).2.current_line_index = 0 ∧
    ((t.submit_line now).2.get_progress).1 = t.templates.length + 1 ∧
    ((t.submit_line now).2.get_progress).2.1 = t.templates.length ∧
    ((t.submit_line now).2.get_progress).2.1 < ((t.submit_line now).2.get_progress).1 := by
  by_cases hu : t.user_input = []
  · rw [submit_line_nil hu] at hc; exact absurd hc (by simp)
  rcases le_or_lt t.current_template.length (t.current_line_index + 1) with hge | hlt1
  · rcases le_or_lt t.templates.length (t.current_template_index + 1) with hge2 | hlt2
    · have hti : t.current_template_index = t.templates.length - 1 := by omega
      have hti2 : t.current_template_index + 1 = t.templates.length := by omega
      have htpl := (reachable_inv hr).2.2 hlt
      rw [submit_line_case_done hu hge hge2]
      refine ⟨by simpa [after_counters] using hti2, ?_, rfl, ?_, ?_, ?_⟩
      · show t.current_template = _
        rw [htpl, hti]
      · show ({ after_counters t now with
                current_template_index := t.current_template_index + 1,
                current_line_index := 0, user_input := [],
                end_time := some now } : TypingTest).current_template_index + 1
            = t.templates.length + 1
        simpa [after_counters] using hti2
      · rfl
      · show t.templates.length < _ + 1
        simp [after_counters]
        omega
    · rw [submit_line_case_template hu hge hlt2] at hc; exact absurd hc (by simp)
  · rw [submit_line_case_line hu hlt1] at hc; exact absurd hc (by simp)

/-- Witness for C10 at a concrete completing submission. -/
theorem C10_final_submit_cursor_witness :
    (((TypingTest.init Category.easy [['a']]).append_char
        'a').submit_line 1).2.current_template_index
      = ((TypingTest.init Category.easy [['a']]).append_char 'a').templates.length ∧
    (((TypingTest.init Category.easy [['a']]).append_char 'a').submit_line 1).2.current_template
      = ((TypingTest.init Category.easy [['a']]).append_char 'a').templates.getD
          (((TypingTest.init Category.easy [['a']]).append_char 'a').templates.length - 1) [] ∧
    (((TypingTest.init Category.easy [['a']]).append_char
        'a').submit_line 1).2.current_line_index = 0 ∧
    ((((TypingTest.init Category.easy [['a']]).append_char 'a').submit_line 1).2.get_progress).1
      = ((TypingTest.init Category.easy [['a']]).append_char 'a').templates.length + 1 ∧
    ((((TypingTest.init Category.easy [['a']]).append_char
        'a').submit_line 1).2.get_progress).2.1
      = ((TypingTest.init Category.easy [['a']]).append_char 'a').templates.length ∧
    ((((TypingTest.init Category.easy [['a']]).append_char
        'a').submit_line 1).2.get_progress).2.1
      < ((((TypingTest.init Category.easy [['a']]).append_char
          'a').submit_line 1).2.get_progress).1 :=
  C10_final_submit_cursor _ 1
    (Reachable.step (Reachable.init Category.easy [['a']])
      (Step.append (TypingTest.init Category.easy [['a']]) 'a'))
    (by decide) (by decide)

/-- C3 counterexample: after the completing submission the session is
complete (`submit_line` returned `true`), yet `append_char` still appends:
the current line is again the last template's first line, so the claimed
completion no-op fails. -/
theorem C3_counterexample :
    ((((TypingTest.init Category.easy [['a']]).append_char 'a').submit_line 1).1 = true) ∧
    (((((TypingTest.init Category.easy [['a']]).append_char
        'a').submit_line 1).2.append_char 'x').user_input = ['x']) ∧
    ((((TypingTest.init Category.easy [['a']]).append_char
        'a').submit_line 1).2.user_input = []) :=
  ⟨by decide, by decide, by decide⟩

/-- C3 (amended): the operation `append_char` appends exactly when the current line is
non-empty and the buffer is shorter than it, and is a no-op otherwise;
session completion does not by itself disable it, because after completion
the current line is still the last template's first line. -/
theorem C3_append_char_guard (t : TypingTest) (c : Char) :
    (t.get_current_line ≠ [] ∧ t.user_input.length < t.get_current_line.length →
      t.append_char c = { t with user_input := t.user_input ++ [c] }) ∧
    (¬(t.get_current_line ≠ [] ∧ t.user_input.length < t.get_current_line.length) →
      t.append_char c = t) :=
  ⟨fun h => append_char_of_pos h, fun h => append_char_of_neg h⟩

/-- Witness for C3 (amended) at a concrete session. -/
theorem C3_append_char_guard_witness :
    (TypingTest.init Category.easy [['a','b']]).append_char 'x'
      = { TypingTest.init Category.easy [['a','b']] with
          user_input := (TypingTest.init Category.easy [['a','b']]).user_input ++ ['x'] } :=
  (C3_append_char_guard _ 'x').1 (by decide)

/-- C2 counterexample: the completing submission assigns `end_time`, but a
further `append_char`/`submit_line` sequence after completion reassigns it
(the current line is again the last template's first line), so `end_time`
does change under a subsequent sequence of operations. -/
theorem C2_counterexample :
    ((((TypingTest.init Category.easy [['a']]).append_char 'a').submit_line 1).1 = true) ∧
    ((((TypingTest.init Category.easy [['a']]).append_char 'a').submit_line 1).2.end_time
      = some 1) ∧
    (((((((TypingTest.init Category.easy [['a']]).append_char 'a').submit_line
        1).2.append_char 'a').submit_line 2).2.end_time) = some 2) ∧
    ((some (2:ℚ) : Option ℚ) ≠ some (1:ℚ)) :=
  ⟨by decide, by decide, by decide, by decide⟩

/-- Constructing a session stores the split template bodies. -/
lemma init_templates (c : Category) (bodies : List (List Char)) :
    (TypingTest.init c bodies).templates = bodies.map split_on_nl := rfl

/-- C2 (amended): from a fresh session over a non-empty template list all of
whose lines are non-empty, typing and submitting every line of every
template in order returns `false`, with `end_time` still unset, on every
submission except the last, and returns `true` and assigns `end_time := now`
on the last; `end_time` is never changed by `append_char`, `backspace` or
`calculate_instant_wpm`.  (A later `submit_line` with a refilled buffer
would reassign it — see the counterexample.) -/
theorem C2_in_order_run (c : Category) (bodies : List (List Char)) (now : ℚ)
    (hne : bodies ≠ [])
    (hlines : ∀ b ∈ bodies, ∀ l ∈ split_on_nl b, l ≠ []) :
    submit_trace (TypingTest.init c bodies)
        (remaining_lines (TypingTest.init c bodies).templates 0 0) now
      = List.replicate
          ((remaining_lines (TypingTest.init c bodies).templates 0 0).length - 1)
          (false, none)
        ++ [(true, some now)] ∧
    (∀ (t : TypingTest) (ch : Char), (t.append_char ch).end_time = t.end_time) ∧
    (∀ t : TypingTest, t.backspace.end_time = t.end_time) ∧
    (∀ (t : TypingTest) (q : ℚ),
      ((t.calculate_instant_wpm q).2).end_time = t.end_time) := by
  refine ⟨?_, append_char_end_time, backspace_end_time, calculate_instant_wpm_end_time⟩
  apply submit_all_trace
  · rfl
  · rfl
  · rfl
  · rfl
  · rw [init_templates, List.length_map]
    exact List.length_pos.mpr hne
  · cases bodies with
    | nil => exact absurd rfl hne
    | cons b bs =>
      have : (TypingTest.init c (b :: bs)).current_template = split_on_nl b := rfl
      rw [this]
      exact List.length_pos.mpr (split_on_nl_ne_nil b)
  · intro tp htp
    rw [init_templates] at htp
    obtain ⟨b, _, rfl⟩ := List.mem_map.mp htp
    exact split_on_nl_ne_nil b
  · intro tp htp l hl
    rw [init_templates] at htp
    obtain ⟨b, hb, rfl⟩ := List.mem_map.mp htp
    exact hlines b hb l hl

/-- Witness for C2 (amended) over two concrete one-line templates. -/
theorem C2_in_order_run_witness :
    submit_trace (TypingTest.init Category.easy [['h','i'],['o','k']])
        (remaining_lines
          (TypingTest.init Category.easy [['h','i'],['o','k']]).templates 0 0) 7
      = List.replicate
          ((remaining_lines
            (TypingTest.init Category.easy [['h','i'],['o','k']]).templates 0 0).length - 1)
          (false, none)
        ++ [(true, some 7)] ∧
    (∀ (t : TypingTest) (ch : Char), (t.append_char ch).end_time = t.end_time) ∧
    (∀ t : TypingTest, t.backspace.end_time = t.end_time) ∧
    (∀ (t : TypingTest) (q : ℚ),
      ((t.calculate_instant_wpm q).2).end_time = t.end_time) :=
  C2_in_order_run Category.easy [['h','i'],['o','k']] 7 (by decide) (by decide)

/-- C6 counterexample: a first submission at wall-clock time 0 stores
`start_time = some 0`; the Python truthiness test `if not self.start_time`
then keeps returning 0 even though `start_time` is set, the elapsed time is
positive and characters were completed, where the claim's formula demands
the non-zero rounded WPM value. -/
theorem C6_counterexample :
    ((type_chars (TypingTest.init Category.easy [['a','b','c','d','e']])
        ['a','b','c','d','e']).submit_line 0).2.start_time = some 0 ∧
    ((type_chars (TypingTest.init Category.easy [['a','b','c','d','e']])
        ['a','b','c','d','e']).submit_line 0).2.completed_chars = 5 ∧
    ((((type_chars (TypingTest.init Category.easy [['a','b','c','d','e']])
        ['a','b','c','d','e']).submit_line 0).2).calculate_instant_wpm 60).1 = 0 ∧
    roundTo1 (((5 : ℚ) / 5) / (((60 : ℚ) - 0) / 60)) = 1 ∧
    (1 : ℚ) ≠ 0 := by
  refine ⟨by decide, by decide, by decide, ?_, by norm_num⟩
  rw [roundTo1, round_eq]
  norm_num

/-- C6 (amended): the query `calculate_instant_wpm` returns 0 when `start_time` is
unset or equal to 0 (Python float truthiness), and also when no characters
are completed or the elapsed time is not positive; in all other cases it
returns `(completedChars / 5) / elapsedMinutes` rounded to one decimal,
with `elapsedMinutes = (now - startTime) / 60`. -/
theorem C6_instant_wpm (t : TypingTest) (now : ℚ) :
    (t.start_time = none → (t.calculate_instant_wpm now).1 = 0) ∧
    (∀ st, t.start_time = some st → st = 0 → (t.calculate_instant_wpm now).1 = 0) ∧
    (∀ st, t.start_time = some st → t.completed_chars = 0 →
      (t.calculate_instant_wpm now).1 = 0) ∧
    (∀ st, t.start_time = some st → now - st ≤ 0 →
      (t.calculate_instant_wpm now).1 = 0) ∧
    (∀ st, t.start_time = some st → st ≠ 0 → 0 < now - st → 0 < t.completed_chars →
      (t.calculate_instant_wpm now).1
        = roundTo1 (((t.completed_chars : ℚ) / 5) / ((now - st) / 60))) := by
  rw [calculate_instant_wpm_val]
  refine ⟨fun h => by rw [h], fun st h h0 => ?_, fun st h h0 => ?_,
          fun st h h0 => ?_, fun st h h0 h1 h2 => ?_⟩
  · rw [h]; simp [h0]
  · rw [h]; simp [h0]
  · have hnot : ¬ (0 < now - st) := not_lt.mpr h0
    rw [h]; simp [hnot]
  · rw [h]; simp [h0, h1, h2]

/-- Witness for C6 (amended) at a concrete session and query time. -/
theorem C6_instant_wpm_witness :
    ((TypingTest.init Category.easy [['a']]).calculate_instant_wpm 7).1 = 0 :=
  (C6_instant_wpm (TypingTest.init Category.easy [['a']]) 7).1 rfl

/-- C7 counterexample: with `wpm_history = [3/50]` (an instantaneous WPM of
0.06, e.g. 3 completed characters over 600 seconds), the rounded average is
1/10, which strictly exceeds the maximum (and only) history entry. -/
theorem C7_counterexample :
    ({ TypingTest.init Category.easy [] with
        wpm_history := [3/50] } : TypingTest).wpm_history = [3/50] ∧
    ({ TypingTest.init Category.easy [] with
        wpm_history := [3/50] } : TypingTest).calculate_average_wpm = 1/10 ∧
    (3/50 : ℚ) < 1/10 := by
  refine ⟨rfl, ?_, by norm_num⟩
  rw [TypingTest.calculate_average_wpm]
  rw [if_neg (by simp)]
  show roundTo1 ((3/50 + 0) / _) = 1/10
  rw [roundTo1, round_eq]
  norm_num

/-- C7 (amended): the query `calculate_average_wpm` returns 0 on an empty history;
otherwise the unrounded mean of `wpm_history` lies between any lower and
upper bound of the history, and the returned value — the mean rounded to
one decimal — can differ from those bounds by at most 1/20. -/
theorem C7_average_wpm_bounds (t : TypingTest) (M m : ℚ) :
    (t.wpm_history = [] → t.calculate_average_wpm = 0) ∧
    (t.wpm_history ≠ [] → (∀ x ∈ t.wpm_history, x ≤ M) → (∀ x ∈ t.wpm_history, m ≤ x) →
      m ≤ t.wpm_history.sum / (t.wpm_history.length : ℚ) ∧
      t.wpm_history.sum / (t.wpm_history.length : ℚ) ≤ M ∧
      m - 1/20 ≤ t.calculate_average_wpm ∧
      t.calculate_average_wpm ≤ M + 1/20) := by
  refine ⟨fun h => by rw [TypingTest.calculate_average_wpm, if_pos h],
          fun hne hM hm => ?_⟩
  have h1 : m ≤ t.wpm_history.sum / (t.wpm_history.length : ℚ) := le_list_mean hne hm
  have h2 : t.wpm_history.sum / (t.wpm_history.length : ℚ) ≤ M := list_mean_le hne hM
  have hclose := roundTo1_close (t.wpm_history.sum / (t.wpm_history.length : ℚ))
  rw [abs_le] at hclose
  have haux : t.calculate_average_wpm
      = roundTo1 (t.wpm_history.sum / (t.wpm_history.length : ℚ)) := by
    rw [TypingTest.calculate_average_wpm, if_neg hne]
  exact ⟨h1, h2, by rw [haux]; linarith [hclose.1], by rw [haux]; linarith [hclose.2]⟩

/-- Witness for C7 (amended) at a concrete history. -/
theorem C7_average_wpm_bounds_witness :
    (2 : ℚ) ≤ ({ TypingTest.init Category.easy [] with
        wpm_history := [2, 4] } : TypingTest).wpm_history.sum
          / (({ TypingTest.init Category.easy [] with
              wpm_history := [2, 4] } : TypingTest).wpm_history.length : ℚ) ∧
    ({ TypingTest.init Category.easy [] with
        wpm_history := [2, 4] } : TypingTest).wpm_history.sum
          / (({ TypingTest.init Category.easy [] with
              wpm_history := [2, 4] } : TypingTest).wpm_history.length : ℚ) ≤ 4 ∧
    (2 : ℚ) - 1/20 ≤ ({ TypingTest.init Category.easy [] with
        wpm_history := [2, 4] } : TypingTest).calculate_average_wpm ∧
    ({ TypingTest.init Category.easy [] with
        wpm_history := [2, 4] } : TypingTest).calculate_average_wpm ≤ 4 + 1/20 :=
  (C7_average_wpm_bounds ({ TypingTest.init Category.easy [] with
      wpm_history := [2, 4] } : TypingTest) 4 2).2 (by simp)
    (by intro x hx; simp at hx; rcases hx with rfl | rfl <;> norm_num)
    (by intro x hx; simp at hx; rcases hx with rfl | rfl <;> norm_num)

/-- Witness for C8 at a concrete reachable state (after one appended key). -/
theorem C8_buffer_bounded_witness :
    0 ≤ ((TypingTest.init Category.easy [['a', 'b']]).append_char 'a').user_input.length ∧
    ((TypingTest.init Category.easy [['a', 'b']]).append_char 'a').user_input.length
      ≤ ((TypingTest.init Category.easy [['a', 'b']]).append_char 'a').get_current_line.length :=
  C8_buffer_bounded _
    (Reachable.step (Reachable.init Category.easy [['a', 'b']])
      (Step.append (TypingTest.init Category.easy [['a', 'b']]) 'a'))

end Termtype
